import Mathlib

/-!
Verification of the report-artifact correlation and identity-resolution
subsystem of SiteLogix-v4.

This file gives a shallow embedding, in Lean 4, of the relevant parts of the
TypeScript/JavaScript sources:

* the employee identity resolver
  (`src/lib/repositories/adapters/google/employee.adapter.ts`,
   `src/lib/repositories/utils/fuzzy-match.ts`);
* report ingestion and validation (`src/services/report-processor.ts`,
  `src/app/api/voice/webhook/route.ts`);
* the Google-Sheets report store adapter
  (`src/lib/repositories/adapters/google/report.adapter.ts`);
* the per-call correlation webhook (`src/app/api/voice/post-call/route.ts`);
* the batch correlator (the Lambda handler, `lambda/post-call-webhook`).

JavaScript values are modelled as follows: a cell or field that may be
`undefined` becomes an `Option`; JS number coercion `Number(x) || 0` becomes
`numOr0` over `Option (Option ℚ)` (outer `none` = field absent, inner `none` =
not-a-number); timestamps are integer milliseconds.  External services
(Fuse.js fuzzy search, Google APIs, artifact fetches) enter as explicit
parameters or environment records so that the control flow around them is the
code's own.
-/

namespace SiteLogix

/-- JS truthiness of an optional string cell: `undefined` and `""` are falsy. -/
def truthy : Option String → Bool
  | none => false
  | some s => s ≠ ""

/-- `Number(x) || 0` applied to a possibly-absent, possibly-non-numeric field:
an absent field (`Number(undefined) = NaN`) and a non-numeric value both
collapse to `0`. -/
def numOr0 : Option (Option ℚ) → ℚ
  | some (some q) => q
  | _ => 0

/-! ## Identity resolver

From `employee.adapter.ts` (`GoogleSheetsEmployeeRepository`) and
`fuzzy-match.ts`.  The Fuse.js search inside `findBestMatch` is an external
library; it is abstracted as a function parameter `fuse`, so every theorem
below holds for an arbitrary behaviour of the fuzzy-search step. -/

/-- A roster entry as read from the Employee Reference tab. -/
structure Employee where
  id : String
  name : String
  active : Bool
deriving Repr, DecidableEq

/-- JS `String.prototype.trim` on a character list: strip leading and
trailing whitespace. -/
def trimChars (l : List Char) : List Char :=
  ((l.dropWhile Char.isWhitespace).reverse.dropWhile Char.isWhitespace).reverse

/-- JS `s.trim()`. -/
def jsTrim (s : String) : String := ⟨trimChars s.data⟩

/-- The normalisation used by `findByName`: `name.toLowerCase().trim()`
(lowercase each character, then trim). -/
def normJs (s : String) : String := jsTrim ⟨s.data.map Char.toLower⟩

/-- `GoogleSheetsEmployeeRepository.findByName`: first entry of the full
roster (active or not) whose lowercased, trimmed name equals the lowercased,
trimmed search name. -/
def findByName (roster : List Employee) (name : String) : Option Employee :=
  roster.find? (fun e => normJs e.name == normJs name)

/-- `GoogleSheetsEmployeeRepository.fuzzyMatch`: exact match first (over the
whole roster), then the Fuse.js based `findBestMatch` over the active roster.
`fuse` abstracts the library call. -/
def fuzzyMatch (fuse : String → List Employee → ℚ → Option Employee)
    (roster : List Employee) (name : String) (threshold : ℚ) : Option Employee :=
  match findByName roster name with
  | some e => some e
  | none => fuse name (roster.filter (·.active)) threshold

/-- Per-employee name resolution as performed inside `processReport`
(`report-processor.ts` lines 64-83): if no active employee exists the original
name is kept unmatched; otherwise `fuzzyMatch` with threshold 0.6 decides.
Returns (normalizedName, matched). -/
def resolveEmployee (fuse : String → List Employee → ℚ → Option Employee)
    (roster : List Employee) (spoken : String) : String × Bool :=
  let active := roster.filter (·.active)
  if active.isEmpty then (spoken, false)
  else
    match fuzzyMatch fuse roster spoken (6/10) with
    | some e => (e.name, true)
    | none => (spoken, false)

/-- `levenshteinDistance` from `fuzzy-match.ts`: the dynamic-programming
matrix there computes exactly the textbook edit-distance recurrence, stated
here as the equivalent structural recursion on the character lists. -/
def levenshteinDistance : List Char → List Char → Nat
  | [], ys => ys.length
  | x :: xs, [] => (x :: xs).length
  | x :: xs, y :: ys =>
    if x = y then levenshteinDistance xs ys
    else 1 + min (levenshteinDistance xs ys)
      (min (levenshteinDistance (x :: xs) ys) (levenshteinDistance xs (y :: ys)))
termination_by a b => a.length + b.length
decreasing_by all_goals simp_arith


/-! ## Report ingestion: validation and derived totals

From `report-processor.ts` (`validateWebhookData`, `processReport`) and the
tool-call route (`app/api/voice/webhook/route.ts`, part_006 variant). -/

/-- One entry of the `employees` array of the inbound tool-call payload.
`name = none` models a missing or non-string `name`; the hours fields are
`none` when the key is absent (`undefined`), `some none` when present but not
numeric, `some (some q)` when numeric. -/
structure RawEmployee where
  name : Option String
  regular_hours : Option (Option ℚ)
  overtime_hours : Option (Option ℚ)
deriving Repr, DecidableEq

/-- The part of the tool-call payload that validation inspects.  An entry that
is not an object is `none`; a missing or non-array `employees` key is `none`. -/
structure RawPayload where
  employees : Option (List (Option RawEmployee))
deriving Repr, DecidableEq

/-- `validateWebhookData` (`report-processor.ts` lines 208-235), with `none`
for a non-object payload. -/
def validateWebhookData (d : Option RawPayload) : Bool :=
  match d with
  | none => false
  | some p =>
    match p.employees with
    | none => false
    | some l =>
      if l.isEmpty then false
      else l.all (fun entry =>
        match entry with
        | none => false
        | some e =>
          match e.name with
          | none => false
          | some s =>
            if jsTrim s = "" then false
            else !(e.regular_hours = none && e.overtime_hours = none))

/-- The acceptance condition exactly as the specification words it: the
payload carries at least one employee entry, every entry has a non-empty
(non-blank) name, and every entry has at least one of regular/overtime hours
present.  Written from the spec for comparison with `validateWebhookData`. -/
def specAccepts (d : Option RawPayload) : Prop :=
  ∃ p, d = some p ∧ ∃ l, p.employees = some l ∧ l ≠ [] ∧
    ∀ entry ∈ l, ∃ e, entry = some e ∧
      (∃ s, e.name = some s ∧ jsTrim s ≠ "") ∧
      ¬(e.regular_hours = none ∧ e.overtime_hours = none)

/-- Response shape of the tool-call route (part_006): `success` plus an
optional error message that the conversational agent can read back. -/
structure ToolResponse where
  success : Bool
  error : Option String
  reportId : Option String
deriving Repr, DecidableEq

/-- The tool-call route `POST` (part_006 lines 39-78) around validation:
invalid data produces a structured failure response carrying an error
message; valid data proceeds to `processReport`, whose outcome (externally
determined I/O) is abstracted by `procOk`. -/
def toolCallRespond (procOk : Bool) (reportId : String) (d : Option RawPayload) :
    ToolResponse :=
  if validateWebhookData d then
    if procOk then { success := true, error := none, reportId := some reportId }
    else { success := false, error := some "Failed to save report", reportId := none }
  else
    { success := false
      error := some "Invalid report data - employees array is required"
      reportId := none }

/-- An employee-hours record as built by ingestion or read back from the
store (`types.ts` EmployeeHours, hours as rationals). -/
structure EmployeeHours where
  name : String
  normalizedName : String
  regularHours : ℚ
  overtimeHours : ℚ
  totalHours : ℚ
deriving Repr, DecidableEq

/-- The per-employee computation of `processReport`
(`report-processor.ts` lines 58-93): coerce the two hour fields with
`Number(x) || 0`, sum them, and resolve the name. -/
def processEmployee (fuse : String → List Employee → ℚ → Option Employee)
    (roster : List Employee) (emp : RawEmployee) : EmployeeHours :=
  let r := numOr0 emp.regular_hours
  let o := numOr0 emp.overtime_hours
  let spoken := emp.name.getD ""
  let res := resolveEmployee fuse roster spoken
  { name := spoken
    normalizedName := res.1
    regularHours := r
    overtimeHours := o
    totalHours := r + o }

/-! ## Report identifiers

`saveReport` (`report.adapter.ts` line 33) assigns
`reportId = ` "RPT-" followed by `Date.now()`, the wall-clock time in
milliseconds rendered in decimal.  The batch correlator later recovers the
timestamp from the identifier (part_004 `getReportsWithoutFiles`,
`RPT-(digits)` extraction with `parseInt`). -/

/-- The identifier assigned at ingestion: `RPT-` followed by the ingestion
wall-clock time in milliseconds, in decimal. -/
def mkReportId (nowMs : Nat) : String := "RPT-" ++ Nat.repr nowMs

/-- Decimal value of a digit character (`'0'` to `'9'`). -/
def digitVal (c : Char) : Nat := c.toNat - 48

/-- Value of a list of decimal digit characters, most significant first. -/
def val10 (l : List Char) : Nat := l.foldl (fun a c => 10 * a + digitVal c) 0

/-- Timestamp recovery from a report id, as the batch correlator does with
its `RPT-(digits)` match followed by `parseInt`: drop the four characters of
the `RPT-` prefix and read the rest as a decimal numeral. -/
def parseReportMs (s : String) : Nat := val10 (s.data.drop 4)

/-- A run of ingestions at the given wall-clock times (milliseconds) and the
identifiers `saveReport` hands out for them. -/
def ingestIds (times : List Nat) : List String := times.map mkReportId


/-! ## The Main Report Log sheet

One data row per (report, employee) pair, 17 columns A-Q
(`report.adapter.ts` header comment):
A Timestamp, B Job Site, C Employee Name, D Regular Hours, E OT Hours,
F Deliveries, G Equipment, H Safety, I Weather, J Shortages, K Audio Link,
L Transcript Link, M Delays, N Notes, O Subcontractors, P Work Performed,
Q Report ID.  The sheet is modelled as the list of data rows (the header row,
always skipped by the adapter's loops, is left out; the adapter's 1-indexed
sheet row `i + 1` with `i ≥ 1` becomes list position `j` mapped to `j + 2`).
Column A is represented by the timestamp value `new Date(row[0])` parses to;
cells that the Sheets API may omit (`undefined`) are `Option String`. -/

structure Row where
  colA : Int
  colB : String
  colC : String
  colD : Option String
  colE : Option String
  colF : String
  colG : String
  colH : String
  colI : String
  colJ : String
  colK : Option String
  colL : Option String
  colM : String
  colN : String
  colO : String
  colP : String
  colQ : Option String
deriving Repr, DecidableEq

/-- An employee-hours entry as reconstructed by `getReportsByDateRange`
(`report.adapter.ts` lines 270-278) from one sheet row.  `num` abstracts the
JS coercion `Number(cell) || 0` applied to the two hour cells. -/
def rowToEmployeeHours (num : Option String → ℚ) (r : Row) : EmployeeHours :=
  { name := r.colC
    normalizedName := r.colC
    regularHours := num r.colD
    overtimeHours := num r.colE
    totalHours := num r.colD + num r.colE }

/-- The distinct non-falsy Report ID values of the sheet, in first-occurrence
order — the key set (and iteration order) of the `reportGroups` JS `Map`. -/
def groupKeys (s : List Row) : List String :=
  s.foldl (fun acc r =>
    match r.colQ with
    | some q => if q ≠ "" ∧ q ∉ acc then acc ++ [q] else acc
    | none => acc) []

/-- Timestamp of a report group: column A of the group's first row (the JS
code stores the timestamp when the Map entry is created). -/
def groupTs (s : List Row) (id : String) : Int :=
  match s.find? (fun r => r.colQ == some id) with
  | some r => r.colA
  | none => 0

/-- Whether any row of the group already carries an audio or transcript link
(the group's cumulative `hasFiles` flag). -/
def groupHasFiles (s : List Row) (id : String) : Bool :=
  (s.filter (fun r => r.colQ == some id)).any
    (fun r => truthy r.colK || truthy r.colL)

/-- 1-indexed sheet row numbers of a report group (data row `j` lives at
sheet row `j + 2`). -/
def groupRowIndices (s : List Row) (id : String) : List Nat :=
  (s.enum.filter (fun p => p.2.colQ == some id)).map (fun p => p.1 + 2)

/-- One step of the selection loop of `findRecentReportWithoutFiles`: skip a
group that already has files, otherwise keep the candidate with the strictly
greater timestamp (`group.timestamp > mostRecent.timestamp`). -/
def pickStep (s : List Row) (acc : Option String) (k : String) : Option String :=
  if groupHasFiles s k then acc
  else
    match acc with
    | none => some k
    | some b => if groupTs s b < groupTs s k then some k else some b

/-- The selection loop of `findRecentReportWithoutFiles`: walk the groups in
Map order, skip groups that already have files, keep the one with the
strictly greatest timestamp. -/
def pickMostRecent (s : List Row) : Option String :=
  (groupKeys s).foldl (pickStep s) none

/-- `GoogleSheetsReportRepository.findRecentReportWithoutFiles`
(`report.adapter.ts` lines 394-470). -/
def findRecentReportWithoutFiles (s : List Row) : Option (String × List Nat) :=
  match pickMostRecent s with
  | none => none
  | some id => some (id, groupRowIndices s id)

/-- The per-row effect of `updateFileUrls`: on a row whose Report ID equals
`id`, overwrite column K when an audio URL was provided and column L when a
transcript URL was provided; all other cells, and all other rows, stay. -/
def updateRow (id : String) (audioUrl transcriptUrl : Option String) (r : Row) : Row :=
  if r.colQ = some id then
    { r with
      colK := if truthy audioUrl then audioUrl else r.colK
      colL := if truthy transcriptUrl then transcriptUrl else r.colL }
  else r

/-- `GoogleSheetsReportRepository.updateFileUrls`
(`report.adapter.ts` lines 294-388).  The returned Bool records whether a
store write (`batchUpdate`) was issued: none is when no row matches `id`, and
none is when the prepared update list is empty. -/
def updateFileUrls (s : List Row) (id : String) (audioUrl transcriptUrl : Option String) :
    List Row × Bool :=
  let matching := s.filter (fun r => r.colQ == some id)
  if matching.isEmpty then (s, false)
  else if !(truthy audioUrl || truthy transcriptUrl) then (s, false)
  else (s.map (updateRow id audioUrl transcriptUrl), true)

/-! ## Per-call correlation (`app/api/voice/post-call/route.ts`) -/

/-- One transcript entry of the post-call payload. -/
structure TranscriptEntry where
  role : String
  message : String
  time_in_call_secs : Option Nat
deriving Repr, DecidableEq

/-- `String(n).padStart(2, '0')`. -/
def pad2 (n : Nat) : String :=
  if (Nat.repr n).length < 2 then "0" ++ Nat.repr n else Nat.repr n

/-- One line of `formatTranscript`; a `time_in_call_secs` of `0` is falsy in
JS, so it produces no time bracket. -/
def formatEntry (e : TranscriptEntry) : String :=
  (if e.role == "agent" then "Roxy" else "User") ++
    (match e.time_in_call_secs with
     | some t => if t = 0 then "" else " [" ++ Nat.repr (t / 60) ++ ":" ++ pad2 (t % 60) ++ "]"
     | none => "") ++
    ": " ++ e.message

/-- `formatTranscript` (route.ts lines 198-212): empty string for a missing
or empty transcript, otherwise the newline-joined entry lines. -/
def formatTranscript : List TranscriptEntry → String
  | [] => ""
  | es => String.intercalate "\n" (es.map formatEntry)

/-- The post-call webhook payload (`ElevenLabsPostCallPayload`); a missing
`conversation_id` is modelled by `""` (both are falsy in the JS check). -/
structure PostCallPayload where
  conversation_id : String
  status : String
  call_duration_secs : Option Int
  transcript : List TranscriptEntry
  recording_url : Option String
deriving Repr, DecidableEq

/-- Outcomes of the external effects the post-call handler performs, one
field per I/O site: signature configuration/verification, JSON body parse,
the sheet read inside `findRecentReportWithoutFiles`, the two Drive uploads
(`some url` on success, `none` when the upload throws), and the sheet write
of `updateFileUrls`. -/
structure PostCallEnv where
  sigConfigured : Bool
  sigValid : Bool
  parseOk : Bool
  scanOk : Bool
  transcriptUpload : Option String
  audioUpload : Option String
  updateOk : Bool
deriving Repr, DecidableEq

/-- Result of one post-call `POST`: HTTP status, the sheet afterwards, and
the names of the files successfully uploaded during the request. -/
structure PostCallResult where
  status : Nat
  sheet : List Row
  uploads : List String
deriving Repr, DecidableEq

/-- The post-call `POST` handler (route.ts lines 55-180).  Branch order as in
the source: signature (401), body parse (caught: 500), missing
`conversation_id` (400), non-`done` status (200, no-op), sheet scan failure
(caught at top level: 500), no unlinked report (200, no-op), otherwise upload
the available artifacts (each in its own try/catch) and, when at least one
URL was obtained, write it to the matched report's rows (write failure also
caught, still 200). -/
def postCall (env : PostCallEnv) (p : PostCallPayload) (s : List Row) : PostCallResult :=
  if env.sigConfigured && !env.sigValid then ⟨401, s, []⟩
  else if !env.parseOk then ⟨500, s, []⟩
  else if p.conversation_id = "" then ⟨400, s, []⟩
  else if p.status ≠ "done" then ⟨200, s, []⟩
  else if !env.scanOk then ⟨500, s, []⟩
  else
    match findRecentReportWithoutFiles s with
    | none => ⟨200, s, []⟩
    | some (id, _) =>
      let tText := formatTranscript p.transcript
      let tUrl : Option String := if tText ≠ "" then env.transcriptUpload else none
      let tUploads : List String :=
        if tText ≠ "" && env.transcriptUpload.isSome then
          ["transcript-" ++ id ++ "-" ++ p.conversation_id ++ ".txt"]
        else []
      let aUrl : Option String := if truthy p.recording_url then env.audioUpload else none
      let aUploads : List String :=
        if truthy p.recording_url && env.audioUpload.isSome then
          ["audio-" ++ id ++ "-" ++ p.conversation_id ++ ".mp3"]
        else []
      let sheet' :=
        if (truthy aUrl || truthy tUrl) && env.updateOk then
          (updateFileUrls s id aUrl tUrl).1
        else s
      ⟨200, sheet', tUploads ++ aUploads⟩

/-! ## The report-data webhook (`app/api/voice/webhook/route.ts`) -/

/-- External outcomes inside the report-data webhook: body parse, whether
`processReport` (or anything else inside the `try`) throws, and whether it
reports success. -/
structure WebhookEnv where
  parseOk : Bool
  processThrows : Bool
  processOk : Bool
deriving Repr, DecidableEq

/-- The fields of the conversation-completion payload that control the
route's branching. -/
structure ConversationPayload where
  status : String
  hasData : Bool
  dataValid : Bool
deriving Repr, DecidableEq

/-- The report-data webhook `POST` (webhook route lines 62-153), reduced to
its response: HTTP status and the `processed` flag.  Every branch, including
the catch-all error branch, responds with `NextResponse.json` and no explicit
status, i.e. HTTP 200. -/
def webhookRespond (env : WebhookEnv) (p : ConversationPayload) : Nat × Bool :=
  if !env.parseOk then (200, false)
  else if p.status = "failed" then (200, false)
  else if p.status = "interrupted" then (200, false)
  else if p.status = "completed" && p.hasData then
    if !p.dataValid then (200, false)
    else if env.processThrows then (200, false)
    else if !env.processOk then (200, false)
    else (200, true)
  else (200, false)

/-! ## Batch correlation (the Lambda handler, part_004 `batchProcess`)

A provider conversation ("call event") carries its id, status, start time and
duration; whether fetching its audio/transcript succeeds is recorded in two
outcome flags (`processConversation` catches either failure independently).
Reports enter as the groups `getReportsWithoutFiles` produces: id and
timestamp, already restricted to reports without files; `batchMatch` applies
that function's ascending-timestamp sort before the matching loop. -/

structure Conv where
  conversation_id : String
  status : String
  start_time_unix_secs : Int
  call_duration_secs : Int
  hasAudio : Bool
  hasTranscript : Bool
deriving Repr, DecidableEq

/-- `convEndTime = conv.start_time_unix_secs * 1000 + conv.call_duration_secs
* 1000` (batchProcess lines 447-448), in milliseconds. -/
def convEndMs (c : Conv) : Int :=
  c.start_time_unix_secs * 1000 + c.call_duration_secs * 1000

/-- One report group of `getReportsWithoutFiles`: report id and its
timestamp in milliseconds. -/
structure RGroup where
  id : String
  ts : Int
deriving Repr, DecidableEq

/-- The batch window test of batchProcess line 457 on `diff = reportTime -
convEndTime`: `diff >= -60000 && diff < 5 * 60 * 1000`. -/
def windowOk (diff : Int) : Bool :=
  decide (-60000 ≤ diff) && decide (diff < 300000)

/-- The window as the specification words it: `-60s ≤ S - E ≤ 300s`
(inclusive upper bound).  Written from the spec for comparison with
`windowOk`. -/
def specWindow (diff : Int) : Prop := -60000 ≤ diff ∧ diff ≤ 300000

/-- The inner loop of batchProcess (lines 443-461): scan the conversation
list for the best match of one report, carrying the current best candidate
and its `|diff|`.  A conversation participates only if its status is `done`
and it is not in the used set; it becomes the new best only if it passes the
window test and strictly improves `bestDiff` (initially infinity, modelled by
`none`). -/
def scanConvs (rts : Int) (used : List String) :
    List Conv → Option (Conv × Int) → Option (Conv × Int)
  | [], best => best
  | c :: rest, best =>
    if c.status ≠ "done" then scanConvs rts used rest best
    else if c.conversation_id ∈ used then scanConvs rts used rest best
    else
      let diff := rts - convEndMs c
      let better := match best with
        | none => true
        | some (_, b) => |diff| < b
      if windowOk diff && better then scanConvs rts used rest (some (c, |diff|))
      else scanConvs rts used rest best

/-- The outer loop of batchProcess (lines 435-489): for each report in order,
find its best conversation; if found, mark the conversation used (whether or
not its artifacts can be fetched) and record a link exactly when at least one
artifact was obtained.  Returns the links (reportId, conversationId) in
processing order together with the used-conversation list. -/
def batchLoop : List RGroup → List Conv → List String → List (String × String) →
    List (String × String) × List String
  | [], _, used, links => (links.reverse, used)
  | r :: rest, convs, used, links =>
    match scanConvs r.ts used convs none with
    | none => batchLoop rest convs used links
    | some (c, _) =>
      let used' := used ++ [c.conversation_id]
      if c.hasAudio || c.hasTranscript then
        batchLoop rest convs used' ((r.id, c.conversation_id) :: links)
      else batchLoop rest convs used' links

/-- Stable insertion of a report group into an ascending-timestamp list
(equal timestamps keep arrival order, as the JS stable sort does). -/
def insertTs (r : RGroup) : List RGroup → List RGroup
  | [] => [r]
  | x :: xs => if x.ts ≤ r.ts then x :: insertTs r xs else r :: x :: xs

/-- The `sort((a, b) => a.timestamp - b.timestamp)` of
`getReportsWithoutFiles` (oldest first, stable). -/
def sortByTs (l : List RGroup) : List RGroup :=
  l.foldl (fun acc r => insertTs r acc) []

/-- The batch matching of `batchProcess`: sort the file-less report groups by
ascending timestamp, then run the greedy per-report loop. -/
def batchMatch (reports : List RGroup) (convs : List Conv) :
    List (String × String) × List String :=
  batchLoop (sortByTs reports) convs [] []

/-- The absolute timestamp offset `|S - E|` of a (report, conversation)
pair. -/
def pairDiff (r : RGroup) (c : Conv) : Int := |r.ts - convEndMs c|

/-- Eligibility of a pair under the claim's window (status `done`,
`-60s ≤ S - E ≤ 300s`), used by the claim-side greedy procedure below. -/
def claimEligible (r : RGroup) (c : Conv) : Bool :=
  c.status == "done" && decide (-60000 ≤ r.ts - convEndMs c) &&
    decide (r.ts - convEndMs c ≤ 300000)

/-- The globally smallest-offset eligible pair over all (report,
conversation) pairs, ties resolved by scan order.  Written from the claim's
wording ("repeatedly the pair with the smallest |S - E| over all
still-unassigned events and still-unlinked reports"), for comparison with
`batchMatch`. -/
def minPair (reports : List RGroup) (convs : List Conv) : Option (RGroup × Conv) :=
  reports.foldl (fun acc r =>
    convs.foldl (fun acc c =>
      if claimEligible r c then
        match acc with
        | none => some (r, c)
        | some (r0, c0) => if pairDiff r c < pairDiff r0 c0 then some (r, c) else some (r0, c0)
      else acc) acc) none

/-- The claim's greedy procedure: repeatedly assign the globally
smallest-offset eligible pair and remove both parties.  Written from the
claim's wording, for comparison with `batchMatch`. -/
def specGlobalGreedy : Nat → List RGroup → List Conv → List (String × String)
  | 0, _, _ => []
  | fuel + 1, reports, convs =>
    match minPair reports convs with
    | none => []
    | some (r, c) =>
      (r.id, c.conversation_id) ::
        specGlobalGreedy fuel (reports.erase r) (convs.erase c)

/-! ## Theorems -/

theorem levenshteinDistance_self (l : List Char) : levenshteinDistance l l = 0 := by
  induction l with
  | nil => simp [levenshteinDistance]
  | cons x xs ih => simp [levenshteinDistance, ih]

theorem digitVal_digitChar {d : Nat} (h : d < 10) :
    digitVal (Nat.digitChar d) = d := by
  interval_cases d <;> rfl

theorem val10_append_singleton (xs : List Char) (c : Char) :
    val10 (xs ++ [c]) = 10 * val10 xs + digitVal c := by
  simp [val10, List.foldl_append]

theorem toDigitsCore_eq_append :
    ∀ (f n : Nat) (l : List Char),
      Nat.toDigitsCore 10 f n l = Nat.toDigitsCore 10 f n [] ++ l := by
  intro f
  induction f with
  | zero => intro n l; simp [Nat.toDigitsCore]
  | succ f ih =>
    intro n l
    simp only [Nat.toDigitsCore]
    by_cases h : n / 10 = 0
    · simp [h]
    · simp only [h, if_false]
      rw [ih (n / 10) [Nat.digitChar (n % 10)],
        ih (n / 10) (Nat.digitChar (n % 10) :: l), List.append_assoc]
      rfl

theorem val10_toDigitsCore :
    ∀ (f n : Nat), n < f → val10 (Nat.toDigitsCore 10 f n []) = n := by
  intro f
  induction f with
  | zero => intro n h; omega
  | succ f ih =>
    intro n h
    simp only [Nat.toDigitsCore]
    by_cases h0 : n / 10 = 0
    · have hn : n < 10 := by omega
      have hmod : n % 10 = n := Nat.mod_eq_of_lt hn
      simp [h0, val10, hmod, digitVal_digitChar hn]
    · have hge : 10 ≤ n := by
        by_contra hc
        exact h0 (Nat.div_eq_of_lt (by omega))
      have hlt : n / 10 < f := by
        have := Nat.div_lt_self (by omega : 0 < n) (by norm_num : 1 < 10)
        omega
      simp only [h0, if_false]
      rw [toDigitsCore_eq_append, val10_append_singleton, ih (n / 10) hlt,
        digitVal_digitChar (Nat.mod_lt n (by norm_num))]
      omega

theorem val10_repr (n : Nat) : val10 (Nat.repr n).data = n := by
  show val10 (Nat.toDigits 10 n) = n
  exact val10_toDigitsCore (n + 1) n (Nat.lt_succ_self n)

theorem parseReportMs_mkReportId (t : Nat) :
    parseReportMs (mkReportId t) = t := by
  show val10 ((("RPT-" : String).data ++ (Nat.repr t).data).drop 4) = t
  rw [show (4 : Nat) = ("RPT-" : String).data.length from rfl, List.drop_left]
  exact val10_repr t

theorem mkReportId_injective : Function.Injective mkReportId := by
  intro t1 t2 h
  have := congrArg parseReportMs h
  rwa [parseReportMs_mkReportId, parseReportMs_mkReportId] at this

/-- C6: for every employee entry of every Report, `totalHours` equals
`regularHours + overtimeHours`, both for entries computed at ingestion
(`processReport`) and for entries reconstructed when reports are read back
from the store (`getReportsByDateRange`), whatever the fuzzy matcher and the
JS numeric coercion do. -/
theorem totalHours_invariant :
    (∀ (fuse : String → List Employee → ℚ → Option Employee)
      (roster : List Employee) (emp : RawEmployee),
      (processEmployee fuse roster emp).totalHours =
        (processEmployee fuse roster emp).regularHours +
          (processEmployee fuse roster emp).overtimeHours) ∧
    (∀ (num : Option String → ℚ) (r : Row),
      (rowToEmployeeHours num r).totalHours =
        (rowToEmployeeHours num r).regularHours +
          (rowToEmployeeHours num r).overtimeHours) :=
  ⟨fun _ _ _ => rfl, fun _ _ => rfl⟩

/-- C7: `validateWebhookData` accepts a payload exactly when it has at least
one employee entry, every entry has a non-blank name, and every entry has at
least one of the two hour fields present; and the tool-call route answers any
rejected payload with a structured failure response that carries an error
message. -/
theorem validateWebhookData_correct :
    (∀ d, validateWebhookData d = true ↔ specAccepts d) ∧
    (∀ (procOk : Bool) (rid : String) (d : Option RawPayload), ¬ specAccepts d →
      (toolCallRespond procOk rid d).success = false ∧
      (toolCallRespond procOk rid d).error.isSome = true) := by
  have hentry : ∀ entry : Option RawEmployee,
      (match entry with
        | none => false
        | some e =>
          match e.name with
          | none => false
          | some s =>
            if jsTrim s = "" then false
            else !(decide (e.regular_hours = none) && decide (e.overtime_hours = none))) = true ↔
      (∃ e, entry = some e ∧ (∃ s, e.name = some s ∧ jsTrim s ≠ "") ∧
        ¬(e.regular_hours = none ∧ e.overtime_hours = none)) := by
    intro entry
    cases entry with
    | none => simp
    | some e =>
      cases hname : e.name with
      | none => simp [hname]
      | some s =>
        by_cases hs : jsTrim s = ""
        · simp [hname, hs]
        · simp [hname, hs]
          tauto
  have hiff : ∀ d, validateWebhookData d = true ↔ specAccepts d := by
    intro d
    cases d with
    | none => simp [validateWebhookData, specAccepts]
    | some p =>
      cases hE : p.employees with
      | none =>
        simp only [validateWebhookData, hE, specAccepts, Option.some.injEq]
        constructor
        · intro h; exact absurd h (by simp)
        · rintro ⟨p', hp', l', hl', -, -⟩
          obtain rfl : p = p' := hp'
          rw [hE] at hl'
          exact absurd hl' (by simp)
      | some l =>
        simp only [validateWebhookData, hE, specAccepts]
        by_cases hl : l = []
        · subst hl
          simp only [List.isEmpty_nil, if_true]
          constructor
          · intro h; exact absurd h (by simp)
          · rintro ⟨p', hp', l', hl', hne, -⟩
            obtain rfl : p = p' := Option.some.inj hp'
            rw [hE] at hl'
            exact (hne (Option.some.inj hl').symm).elim
        · have hlf : l.isEmpty = false := by simpa using hl
          simp only [hlf, Bool.false_eq_true, if_false, List.all_eq_true]
          constructor
          · intro h
            exact ⟨p, rfl, l, hE, hl, fun entry hmem => (hentry entry).mp (h entry hmem)⟩
          · rintro ⟨p', hp', l', hl', -, hall⟩
            obtain rfl : p = p' := Option.some.inj hp'
            rw [hE] at hl'
            obtain rfl : l = l' := Option.some.inj hl'
            exact fun entry hmem => (hentry entry).mpr (hall entry hmem)
  refine ⟨hiff, ?_⟩
  intro procOk rid d hrej
  have hv : validateWebhookData d = false := by
    cases hvb : validateWebhookData d with
    | false => rfl
    | true => exact absurd ((hiff d).mp hvb) hrej
  simp [toolCallRespond, hv]

/-- C7 witness: `validateWebhookData_correct` at a non-object payload, which
is rejected with a structured error response. -/
theorem validateWebhookData_correct_witness :
    (validateWebhookData none = true ↔ specAccepts none) ∧
    ((toolCallRespond true "RPT-1" none).success = false ∧
      (toolCallRespond true "RPT-1" none).error.isSome = true) :=
  ⟨validateWebhookData_correct.1 none,
    validateWebhookData_correct.2 true "RPT-1" none (by simp [specAccepts])⟩

/-- C9 counterexample: two ingestions that occur in the same wall-clock
millisecond — as concurrent ingestions can — receive the identical
identifier, so the claim that no two ingestions ever share an id is false. -/
theorem reportId_collision :
    ¬ (ingestIds [1700000000000, 1700000000000]).Nodup := by
  simp [ingestIds]

/-- C9 amended: the reportId is the opaque token `RPT-` + ingestion
wall-clock milliseconds; ingestions at strictly increasing millisecond
timestamps receive distinct identifiers whose embedded timestamps are
strictly increasing (so a later one never orders before an earlier one), and
a run of ingestions with strictly increasing wall-clock times gets pairwise
distinct ids — but ingestions within the same millisecond collide. -/
theorem reportId_increasing (t1 t2 : Nat) (h : t1 < t2) :
    mkReportId t1 ≠ mkReportId t2 ∧
      parseReportMs (mkReportId t1) < parseReportMs (mkReportId t2) ∧
      ∀ times : List Nat, List.Pairwise (· < ·) times → (ingestIds times).Nodup := by
  refine ⟨fun he => absurd (mkReportId_injective he) (Nat.ne_of_lt h), ?_, ?_⟩
  · rw [parseReportMs_mkReportId, parseReportMs_mkReportId]; exact h
  · intro times hp
    exact List.Pairwise.map mkReportId
      (fun a b hab he => absurd (mkReportId_injective he) (Nat.ne_of_lt hab)) hp

/-- C9 witness: `reportId_increasing` applied at two concrete timestamps. -/
theorem reportId_increasing_witness :
    mkReportId 1700000000000 ≠ mkReportId 1700000000001 ∧
      parseReportMs (mkReportId 1700000000000) <
        parseReportMs (mkReportId 1700000000001) ∧
      ∀ times : List Nat, List.Pairwise (· < ·) times → (ingestIds times).Nodup :=
  reportId_increasing 1700000000000 1700000000001 (by norm_num)

/-- C5 counterexample: a syntactically valid `done` notification whose
processing fails internally (the sheet read inside
`findRecentReportWithoutFiles` throws) is answered by the post-call handler
with HTTP 500, not a success status. -/
theorem postCall_internal_error_500 :
    (postCall
      { sigConfigured := false, sigValid := false, parseOk := true,
        scanOk := false, transcriptUpload := none, audioUpload := none,
        updateOk := true }
      { conversation_id := "conv1", status := "done", call_duration_secs := none,
        transcript := [], recording_url := none }
      []).status = 500 ∧ (500 : Nat) ≠ 200 := by
  constructor
  · rfl
  · decide

/-- C5 amended: the report-data webhook route answers every inbound payload
with HTTP 200, whatever the internal outcome (including a thrown error and a
failed `processReport`); the post-call route answers 200 whenever no
top-level failure occurs before matching — in particular per-artifact upload
failures and a failing store write still yield 200 — but a signature
rejection, an unparsable body, a missing conversation id, or a sheet-read
error yield 401/500/400/500. -/
theorem webhook_always_200 :
    (∀ (env : WebhookEnv) (p : ConversationPayload), (webhookRespond env p).1 = 200) ∧
    (∀ (env : PostCallEnv) (p : PostCallPayload) (s : List Row),
      (env.sigConfigured = true → env.sigValid = true) →
      env.parseOk = true → p.conversation_id ≠ "" → env.scanOk = true →
      (postCall env p s).status = 200) := by
  constructor
  · intro env p
    unfold webhookRespond
    by_cases h1 : env.parseOk
    · by_cases h2 : p.status = "failed"
      · simp [h1, h2]
      · by_cases h3 : p.status = "interrupted"
        · simp [h1, h2, h3]
        · by_cases h4 : p.status = "completed" ∧ p.hasData
          · by_cases h5 : p.dataValid
            · by_cases h6 : env.processThrows <;> by_cases h7 : env.processOk <;>
                simp [h1, h2, h3, h4.1, h4.2, h5, h6, h7]
            · simp [h1, h2, h3, h4.1, h4.2, h5]
          · rcases Decidable.not_and_iff_or_not.mp h4 with h | h <;>
              simp [h1, h2, h3, h]
    · simp [h1]
  · intro env p s hsig hparse hcid hscan
    have hsig' : (env.sigConfigured && !env.sigValid) = false := by
      cases hc : env.sigConfigured with
      | false => rfl
      | true => simp [hsig hc]
    unfold postCall
    rw [hsig', if_neg (by simp), hparse]
    simp only [Bool.not_true, Bool.false_eq_true, if_false]
    rw [if_neg (by simpa using hcid)]
    by_cases hst : p.status ≠ "done"
    · rw [if_pos hst]
    · rw [if_neg hst, hscan]
      simp only [Bool.not_true, Bool.false_eq_true, if_false]
      cases findRecentReportWithoutFiles s with
      | none => rfl
      | some x => rfl

/-- C5 witness: `webhook_always_200` at concrete inputs. -/
theorem webhook_always_200_witness :
    (webhookRespond { parseOk := true, processThrows := true, processOk := false }
      { status := "completed", hasData := true, dataValid := true }).1 = 200 ∧
    (postCall
      { sigConfigured := false, sigValid := false, parseOk := true,
        scanOk := true, transcriptUpload := none, audioUpload := none,
        updateOk := false }
      { conversation_id := "conv2", status := "done", call_duration_secs := none,
        transcript := [], recording_url := none }
      []).status = 200 :=
  ⟨webhook_always_200.1 _ _,
    webhook_always_200.2 _ _ _ (by decide) rfl (by decide) rfl⟩

/-- C8: a spoken name that equals an active roster entry's name up to
lowercasing and whitespace trimming resolves with `matched = true`; the
normalized name returned is the canonical spelling of a roster entry whose
normalized name equals the spoken one, and the edit distance between the two
normalized names is 0 (similarity score exactly 1), whatever the fuzzy
library would do. -/
theorem exactMatch_resolves
    (fuse : String → List Employee → ℚ → Option Employee)
    (roster : List Employee) (spoken : String) (e : Employee)
    (he : e ∈ roster) (ha : e.active = true)
    (hn : normJs spoken = normJs e.name) :
    ∃ canon : String,
      (∃ e', e' ∈ roster ∧ e'.name = canon ∧ normJs canon = normJs spoken) ∧
      resolveEmployee fuse roster spoken = (canon, true) ∧
      levenshteinDistance (normJs spoken).data (normJs canon).data = 0 := by
  have hex : ∃ x ∈ roster, (normJs x.name == normJs spoken) = true :=
    ⟨e, he, by simp [hn]⟩
  obtain ⟨x, hx⟩ : ∃ x, roster.find? (fun y => normJs y.name == normJs spoken) = some x := by
    have := List.find?_isSome.mpr hex
    cases hfx : roster.find? (fun y => normJs y.name == normJs spoken) with
    | none => rw [hfx] at this; simp at this
    | some x => exact ⟨x, rfl⟩
  have hpx := List.find?_some hx
  have hmemx : x ∈ roster := List.mem_of_find?_eq_some hx
  have hnx : normJs x.name = normJs spoken := by simpa using hpx
  have hmemf : e ∈ roster.filter (·.active) := List.mem_filter.mpr ⟨he, by simp [ha]⟩
  have hact : (roster.filter (·.active)).isEmpty = false := by
    cases hfe : (roster.filter (·.active)).isEmpty
    · rfl
    · rw [List.isEmpty_iff] at hfe
      rw [hfe] at hmemf
      exact absurd hmemf (List.not_mem_nil e)
  refine ⟨x.name, ⟨x, hmemx, rfl, hnx⟩, ?_, ?_⟩
  · simp [resolveEmployee, hact, fuzzyMatch, findByName, hx]
  · rw [hnx]
    exact levenshteinDistance_self _

/-- C8 witness: `exactMatch_resolves` on a one-entry roster and a spoken
name differing in case and surrounding whitespace. -/
theorem exactMatch_resolves_witness :
    ∃ canon : String,
      (∃ e', e' ∈ [Employee.mk "emp-1" "Corey Davis" true] ∧ e'.name = canon ∧
        normJs canon = normJs " corey davis ") ∧
      resolveEmployee (fun _ _ _ => none) [Employee.mk "emp-1" "Corey Davis" true]
        " corey davis " = (canon, true) ∧
      levenshteinDistance (normJs " corey davis ").data (normJs canon).data = 0 :=
  exactMatch_resolves (fun _ _ _ => none) _ _ (Employee.mk "emp-1" "Corey Davis" true)
    (by decide) rfl (by decide)

/-- C10: `updateFileUrls` writes only the Audio Link (K) and Transcript Link
(L) cells of rows whose Report ID (Q) equals `id`, and only for the URLs
actually provided: an omitted URL leaves its column unchanged everywhere,
every cell of every row with a different Report ID is unchanged, and when no
row matches `id` (and likewise when the prepared update list is empty) no
store write is issued and the sheet is returned untouched. -/
theorem updateFileUrls_frame (s : List Row) (id : String) (a t : Option String) :
    ((updateFileUrls s id a t).1.length = s.length) ∧
    (∀ i r r', s.get? i = some r → (updateFileUrls s id a t).1.get? i = some r' →
      (r.colQ ≠ some id → r' = r) ∧
      (r'.colA = r.colA ∧ r'.colB = r.colB ∧ r'.colC = r.colC ∧ r'.colD = r.colD ∧
        r'.colE = r.colE ∧ r'.colF = r.colF ∧ r'.colG = r.colG ∧ r'.colH = r.colH ∧
        r'.colI = r.colI ∧ r'.colJ = r.colJ ∧ r'.colM = r.colM ∧ r'.colN = r.colN ∧
        r'.colO = r.colO ∧ r'.colP = r.colP ∧ r'.colQ = r.colQ) ∧
      (truthy a = false → r'.colK = r.colK) ∧
      (truthy t = false → r'.colL = r.colL) ∧
      (r.colQ = some id → r'.colK = (if truthy a then a else r.colK) ∧
        r'.colL = (if truthy t then t else r.colL))) ∧
    ((∀ r ∈ s, r.colQ ≠ some id) → updateFileUrls s id a t = (s, false)) ∧
    ((updateFileUrls s id a t).2 = false → (updateFileUrls s id a t).1 = s) := by
  have hrow : ∀ r : Row,
      (r.colQ ≠ some id → updateRow id a t r = r) ∧
      ((updateRow id a t r).colA = r.colA ∧ (updateRow id a t r).colB = r.colB ∧
        (updateRow id a t r).colC = r.colC ∧ (updateRow id a t r).colD = r.colD ∧
        (updateRow id a t r).colE = r.colE ∧ (updateRow id a t r).colF = r.colF ∧
        (updateRow id a t r).colG = r.colG ∧ (updateRow id a t r).colH = r.colH ∧
        (updateRow id a t r).colI = r.colI ∧ (updateRow id a t r).colJ = r.colJ ∧
        (updateRow id a t r).colM = r.colM ∧ (updateRow id a t r).colN = r.colN ∧
        (updateRow id a t r).colO = r.colO ∧ (updateRow id a t r).colP = r.colP ∧
        (updateRow id a t r).colQ = r.colQ) ∧
      (truthy a = false → (updateRow id a t r).colK = r.colK) ∧
      (truthy t = false → (updateRow id a t r).colL = r.colL) ∧
      (r.colQ = some id → (updateRow id a t r).colK = (if truthy a then a else r.colK) ∧
        (updateRow id a t r).colL = (if truthy t then t else r.colL)) := by
    intro r
    by_cases hq : r.colQ = some id
    · refine ⟨fun h => absurd hq h, ?_, ?_, ?_, ?_⟩
      · simp [updateRow, hq]
      · intro hfa; simp [updateRow, hq, hfa]
      · intro hft; simp [updateRow, hq, hft]
      · intro _; simp [updateRow, hq]
    · simp [updateRow, hq]
  by_cases h1 : (List.filter (fun r => r.colQ == some id) s).isEmpty
  · refine ⟨by simp [updateFileUrls, h1], ?_, ?_, ?_⟩
    · intro i r r' hg hg'
      rw [show (updateFileUrls s id a t).1 = s by simp [updateFileUrls, h1]] at hg'
      obtain rfl : r = r' := by rw [hg] at hg'; exact Option.some.inj hg'
      have hq : r.colQ ≠ some id := by
        intro hq
        have hmem : r ∈ List.filter (fun r => r.colQ == some id) s :=
          List.mem_filter.mpr ⟨List.get?_mem hg, by simp [hq]⟩
        rw [List.isEmpty_iff.mp h1] at hmem
        exact absurd hmem (List.not_mem_nil r)
      exact ⟨fun _ => rfl, by simp, fun _ => rfl, fun _ => rfl, fun h => absurd h hq⟩
    · intro _; simp [updateFileUrls, h1]
    · intro _; simp [updateFileUrls, h1]
  · by_cases h2 : (truthy a || truthy t) = false
    · have hfa : truthy a = false := by
        cases ha : truthy a
        · rfl
        · rw [ha] at h2; simp at h2
      have hft : truthy t = false := by
        cases ht : truthy t
        · rfl
        · rw [ht] at h2; simp at h2
      refine ⟨by simp [updateFileUrls, h1, h2], ?_, ?_, ?_⟩
      · intro i r r' hg hg'
        rw [show (updateFileUrls s id a t).1 = s by simp [updateFileUrls, h1, h2]] at hg'
        obtain rfl : r = r' := by rw [hg] at hg'; exact Option.some.inj hg'
        exact ⟨fun _ => rfl, by simp, fun _ => rfl, fun _ => rfl,
          fun _ => ⟨by simp [hfa], by simp [hft]⟩⟩
      · intro _; simp [updateFileUrls, h1, h2]
      · intro _; simp [updateFileUrls, h1, h2]
    · have h2' : (truthy a || truthy t) = true := by
        cases h : (truthy a || truthy t)
        · exact absurd h h2
        · rfl
      have hmap : updateFileUrls s id a t = (s.map (updateRow id a t), true) := by
        simp [updateFileUrls, h1, h2']
      refine ⟨by simp [hmap], ?_, ?_, ?_⟩
      · intro i r r' hg hg'
        rw [hmap] at hg'
        simp only [List.get?_map, hg, Option.map_some'] at hg'
        obtain rfl : r' = updateRow id a t r := (Option.some.inj hg').symm
        exact hrow r
      · intro hall
        have : (List.filter (fun r => r.colQ == some id) s).isEmpty = true := by
          rw [List.isEmpty_iff, List.filter_eq_nil]
          intro r hr
          simpa using hall r hr
        exact absurd this h1
      · intro hfalse
        rw [hmap] at hfalse
        simp at hfalse

/-- C10 witness: `updateFileUrls_frame` on a two-row sheet, one matching row,
audio URL provided, transcript omitted. -/
theorem updateFileUrls_frame_witness :
    ((updateFileUrls
        [⟨0, "", "", none, none, "", "", "", "", "", none, none, "", "", "", "",
          some "RPT-1"⟩,
         ⟨1, "", "", none, none, "", "", "", "", "", none, none, "", "", "", "",
          some "RPT-2"⟩]
        "RPT-1" (some "AURL") none).1.length = 2) ∧
    ((updateFileUrls
        [⟨0, "", "", none, none, "", "", "", "", "", none, none, "", "", "", "",
          some "RPT-1"⟩,
         ⟨1, "", "", none, none, "", "", "", "", "", none, none, "", "", "", "",
          some "RPT-2"⟩]
        "RPT-1" (some "AURL") none).1.get? 1 =
      some ⟨1, "", "", none, none, "", "", "", "", "", none, none, "", "", "", "",
        some "RPT-2"⟩) := by
  have h := updateFileUrls_frame
    [⟨0, "", "", none, none, "", "", "", "", "", none, none, "", "", "", "",
      some "RPT-1"⟩,
     ⟨1, "", "", none, none, "", "", "", "", "", none, none, "", "", "", "",
      some "RPT-2"⟩]
    "RPT-1" (some "AURL") none
  refine ⟨h.1.trans rfl, ?_⟩
  cases hg' : (updateFileUrls
      [⟨0, "", "", none, none, "", "", "", "", "", none, none, "", "", "", "",
        some "RPT-1"⟩,
       ⟨1, "", "", none, none, "", "", "", "", "", none, none, "", "", "", "",
        some "RPT-2"⟩]
      "RPT-1" (some "AURL") none).1.get? 1 with
  | none =>
    have hlen := h.1
    have := List.get?_eq_none.mp hg'
    rw [hlen] at this
    simp at this
  | some r' =>
    have hframe := (h.2.1 1 _ r' rfl hg').1 (by decide)
    rw [hframe]

/-- Invariant of the `findRecentReportWithoutFiles` selection fold: it yields
`none` exactly when it started from `none` and every remaining group has
files, and any group it yields is file-less and of maximal timestamp among
the file-less groups seen. -/
theorem pick_go (s : List Row) :
    ∀ (ks : List String) (acc : Option String),
      (ks.foldl (pickStep s) acc = none ↔
        (acc = none ∧ ∀ k ∈ ks, groupHasFiles s k = true)) ∧
      (∀ b, ks.foldl (pickStep s) acc = some b →
        ((acc = some b) ∨ (b ∈ ks ∧ groupHasFiles s b = false)) ∧
        (∀ k ∈ ks, groupHasFiles s k = false → groupTs s k ≤ groupTs s b) ∧
        (∀ a, acc = some a → groupTs s a ≤ groupTs s b)) := by
  intro ks
  induction ks with
  | nil =>
    intro acc
    refine ⟨by simp, ?_⟩
    intro b hb
    simp only [List.foldl_nil] at hb
    exact ⟨Or.inl hb, by simp, fun a ha => by rw [ha] at hb; rw [Option.some.inj hb]⟩
  | cons k ks ih =>
    intro acc
    simp only [List.foldl_cons]
    by_cases hk : groupHasFiles s k = true
    · have hstep : pickStep s acc k = acc := by simp [pickStep, hk]
      rw [hstep]
      refine ⟨?_, ?_⟩
      · rw [(ih acc).1]
        constructor
        · rintro ⟨h1, h2⟩
          exact ⟨h1, fun k' hk' => by
            rcases List.mem_cons.mp hk' with rfl | hmem
            · exact hk
            · exact h2 k' hmem⟩
        · rintro ⟨h1, h2⟩
          exact ⟨h1, fun k' hk' => h2 k' (List.mem_cons.mpr (Or.inr hk'))⟩
      · intro b hb
        obtain ⟨hsrc, hmax, hacc⟩ := (ih acc).2 b hb
        refine ⟨?_, ?_, hacc⟩
        · rcases hsrc with h | ⟨hm, hf⟩
          · exact Or.inl h
          · exact Or.inr ⟨List.mem_cons.mpr (Or.inr hm), hf⟩
        · intro k' hk' hf'
          rcases List.mem_cons.mp hk' with rfl | hmem
          · rw [hk] at hf'; cases hf'
          · exact hmax k' hmem hf'
    · have hkf : groupHasFiles s k = false := by
        cases h : groupHasFiles s k
        · rfl
        · exact absurd h hk
      cases hacc0 : acc with
      | none =>
        have hstep : pickStep s none k = some k := by simp [pickStep, hkf]
        rw [hstep]
        refine ⟨?_, ?_⟩
        · rw [(ih (some k)).1]
          simp [hkf]
        · intro b hb
          obtain ⟨hsrc, hmax, haccm⟩ := (ih (some k)).2 b hb
          refine ⟨?_, ?_, ?_⟩
          · rcases hsrc with h | ⟨hm, hf⟩
            · exact Or.inr ⟨List.mem_cons.mpr (Or.inl (Option.some.inj h).symm),
                Option.some.inj h ▸ hkf⟩
            · exact Or.inr ⟨List.mem_cons.mpr (Or.inr hm), hf⟩
          · intro k' hk' hf'
            rcases List.mem_cons.mp hk' with rfl | hmem
            · exact haccm k' rfl
            · exact hmax k' hmem hf'
          · intro a ha; exact absurd ha (by simp)
      | some a0 =>
        have hstep : pickStep s (some a0) k =
            if groupTs s a0 < groupTs s k then some k else some a0 := by
          simp [pickStep, hkf]
        rw [hstep]
        by_cases hlt : groupTs s a0 < groupTs s k
        · rw [if_pos hlt]
          refine ⟨?_, ?_⟩
          · rw [(ih (some k)).1]; simp [hkf]
          · intro b hb
            obtain ⟨hsrc, hmax, haccm⟩ := (ih (some k)).2 b hb
            have hkb : groupTs s k ≤ groupTs s b := haccm k rfl
            refine ⟨?_, ?_, ?_⟩
            · rcases hsrc with h | ⟨hm, hf⟩
              · exact Or.inr ⟨List.mem_cons.mpr (Or.inl (Option.some.inj h).symm),
                  Option.some.inj h ▸ hkf⟩
              · exact Or.inr ⟨List.mem_cons.mpr (Or.inr hm), hf⟩
            · intro k' hk' hf'
              rcases List.mem_cons.mp hk' with rfl | hmem
              · exact hkb
              · exact hmax k' hmem hf'
            · intro a ha
              rw [← Option.some.inj ha]
              exact le_of_lt (lt_of_lt_of_le hlt hkb)
        · rw [if_neg hlt]
          refine ⟨?_, ?_⟩
          · rw [(ih (some a0)).1]; simp
          · intro b hb
            obtain ⟨hsrc, hmax, haccm⟩ := (ih (some a0)).2 b hb
            have hab : groupTs s a0 ≤ groupTs s b := haccm a0 rfl
            refine ⟨?_, ?_, ?_⟩
            · rcases hsrc with h | ⟨hm, hf⟩
              · exact Or.inl h
              · exact Or.inr ⟨List.mem_cons.mpr (Or.inr hm), hf⟩
            · intro k' hk' hf'
              rcases List.mem_cons.mp hk' with rfl | hmem
              · exact le_trans (le_of_not_lt hlt) hab
              · exact hmax k' hmem hf'
            · intro a ha
              rw [← Option.some.inj ha]
              exact hab

/-- `findRecentReportWithoutFiles` returns a file-less group of maximal
timestamp among the file-less groups. -/
theorem findRecent_spec (s : List Row) (id : String) (idxs : List Nat)
    (h : findRecentReportWithoutFiles s = some (id, idxs)) :
    id ∈ groupKeys s ∧ groupHasFiles s id = false ∧ idxs = groupRowIndices s id ∧
      ∀ k ∈ groupKeys s, groupHasFiles s k = false → groupTs s k ≤ groupTs s id := by
  unfold findRecentReportWithoutFiles at h
  cases hp : pickMostRecent s with
  | none => rw [hp] at h; cases h
  | some b =>
    rw [hp] at h
    obtain ⟨rfl, rfl⟩ : b = id ∧ idxs = groupRowIndices s b := by
      have := Option.some.inj h
      exact ⟨congrArg Prod.fst this, (congrArg Prod.snd this).symm⟩
    obtain ⟨hsrc, hmax, -⟩ := (pick_go s (groupKeys s) none).2 b hp
    rcases hsrc with h' | ⟨hm, hf⟩
    · cases h'
    · exact ⟨hm, hf, rfl, hmax⟩

/-- If every group of the sheet already has files,
`findRecentReportWithoutFiles` finds nothing. -/
theorem findRecent_none_of_all_files (s : List Row)
    (h : ∀ k ∈ groupKeys s, groupHasFiles s k = true) :
    findRecentReportWithoutFiles s = none := by
  unfold findRecentReportWithoutFiles
  have : pickMostRecent s = none := (pick_go s (groupKeys s) none).1.mpr ⟨rfl, h⟩
  rw [this]

/-- When no report without files exists, the post-call handler leaves the
sheet untouched and uploads nothing. -/
theorem postCall_noop_of_none (env : PostCallEnv) (p : PostCallPayload) (s : List Row)
    (h : findRecentReportWithoutFiles s = none) :
    (postCall env p s).sheet = s ∧ (postCall env p s).uploads = [] := by
  unfold postCall
  split_ifs <;> try exact ⟨rfl, rfl⟩
  all_goals rw [h]; exact ⟨rfl, rfl⟩

/-- The sheet after a post-call request is either untouched or the result of
`updateFileUrls` on the report the handler matched. -/
theorem postCall_sheet_cases (env : PostCallEnv) (p : PostCallPayload) (s : List Row) :
    (postCall env p s).sheet = s ∨
      ∃ id idxs, findRecentReportWithoutFiles s = some (id, idxs) ∧
        ∃ a t, (postCall env p s).sheet = (updateFileUrls s id a t).1 := by
  unfold postCall
  split
  · exact Or.inl rfl
  split
  · exact Or.inl rfl
  split
  · exact Or.inl rfl
  split
  · exact Or.inl rfl
  split
  · exact Or.inl rfl
  split
  · exact Or.inl rfl
  next id idxs heq =>
    dsimp only
    generalize (if truthy p.recording_url = true then env.audioUpload else none) = aU
    generalize (if formatTranscript p.transcript ≠ "" then env.transcriptUpload else none) = tU
    split
    · exact Or.inr ⟨id, idxs, heq, aU, tU, rfl⟩
    · exact Or.inl rfl

/-- Either branch of `updateFileUrls`: the sheet is unchanged, or it is the
row-wise `updateRow` map. -/
theorem updateFileUrls_fst_cases (s : List Row) (id : String) (a t : Option String) :
    (updateFileUrls s id a t).1 = s ∨
      (updateFileUrls s id a t).1 = s.map (updateRow id a t) := by
  unfold updateFileUrls
  by_cases h1 : (List.filter (fun r => r.colQ == some id) s).isEmpty
  · exact Or.inl (by simp [h1])
  · by_cases h2 : (!(truthy a || truthy t)) = true
    · exact Or.inl (by simp [h1, h2])
    · exact Or.inr (by simp [h1, h2])

/-- C3: a single `done` call-finished notification is matched against
exactly the most-recently-submitted report without artifact links (a
file-less group of maximal timestamp among the file-less groups), with no
dependence on the call's timing (the handler's outcome is unchanged under any
change of `call_duration_secs`); rows of any other report are untouched; and
when no report without links exists, no report is modified and nothing is
uploaded. -/
theorem perCall_matches_most_recent :
    (∀ s id idxs, findRecentReportWithoutFiles s = some (id, idxs) →
      id ∈ groupKeys s ∧ groupHasFiles s id = false ∧ idxs = groupRowIndices s id ∧
        ∀ k ∈ groupKeys s, groupHasFiles s k = false → groupTs s k ≤ groupTs s id) ∧
    (∀ env p s, findRecentReportWithoutFiles s = none →
      (postCall env p s).sheet = s ∧ (postCall env p s).uploads = []) ∧
    (∀ env p s id idxs, findRecentReportWithoutFiles s = some (id, idxs) →
      ∀ i r r', s.get? i = some r → (postCall env p s).sheet.get? i = some r' →
        r.colQ ≠ some id → r' = r) ∧
    (∀ (env : PostCallEnv) (p : PostCallPayload) (s : List Row) (d1 d2 : Option Int),
      postCall env { p with call_duration_secs := d1 } s =
        postCall env { p with call_duration_secs := d2 } s) := by
  refine ⟨findRecent_spec, fun env p s h => postCall_noop_of_none env p s h, ?_, ?_⟩
  · intro env p s id idxs hf i r r' hg hg' hq
    rcases postCall_sheet_cases env p s with hs | ⟨id2, idxs2, hf2, a, t, hs⟩
    · rw [hs, hg] at hg'
      exact (Option.some.inj hg').symm
    · obtain rfl : id = id2 := by
        rw [hf] at hf2
        exact congrArg Prod.fst (Option.some.inj hf2)
      rcases updateFileUrls_fst_cases s id a t with h | h
      · rw [hs, h, hg] at hg'
        exact (Option.some.inj hg').symm
      · rw [hs, h] at hg'
        rw [List.get?_map, hg, Option.map_some'] at hg'
        rw [(Option.some.inj hg').symm, updateRow, if_neg hq]
  · intro env p s d1 d2
    rfl

/-- C3 witness: `perCall_matches_most_recent` on a two-report sheet whose
younger report (`RPT-A`, timestamp 100) has no links. -/
theorem perCall_matches_most_recent_witness :
    ("RPT-A" ∈ groupKeys
        [⟨100, "", "", none, none, "", "", "", "", "", none, none, "", "", "", "",
          some "RPT-A"⟩,
         ⟨50, "", "", none, none, "", "", "", "", "", none, none, "", "", "", "",
          some "RPT-B"⟩] ∧
      groupHasFiles
        [⟨100, "", "", none, none, "", "", "", "", "", none, none, "", "", "", "",
          some "RPT-A"⟩,
         ⟨50, "", "", none, none, "", "", "", "", "", none, none, "", "", "", "",
          some "RPT-B"⟩] "RPT-A" = false ∧
      [2] = groupRowIndices
        [⟨100, "", "", none, none, "", "", "", "", "", none, none, "", "", "", "",
          some "RPT-A"⟩,
         ⟨50, "", "", none, none, "", "", "", "", "", none, none, "", "", "", "",
          some "RPT-B"⟩] "RPT-A" ∧
      ∀ k ∈ groupKeys
        [⟨100, "", "", none, none, "", "", "", "", "", none, none, "", "", "", "",
          some "RPT-A"⟩,
         ⟨50, "", "", none, none, "", "", "", "", "", none, none, "", "", "", "",
          some "RPT-B"⟩],
        groupHasFiles
          [⟨100, "", "", none, none, "", "", "", "", "", none, none, "", "", "", "",
            some "RPT-A"⟩,
           ⟨50, "", "", none, none, "", "", "", "", "", none, none, "", "", "", "",
            some "RPT-B"⟩] k = false →
        groupTs
          [⟨100, "", "", none, none, "", "", "", "", "", none, none, "", "", "", "",
            some "RPT-A"⟩,
           ⟨50, "", "", none, none, "", "", "", "", "", none, none, "", "", "", "",
            some "RPT-B"⟩] k ≤
        groupTs
          [⟨100, "", "", none, none, "", "", "", "", "", none, none, "", "", "", "",
            some "RPT-A"⟩,
           ⟨50, "", "", none, none, "", "", "", "", "", none, none, "", "", "", "",
            some "RPT-B"⟩] "RPT-A") ∧
    ((postCall
        { sigConfigured := false, sigValid := true, parseOk := true, scanOk := true,
          transcriptUpload := some "TURL", audioUpload := none, updateOk := true }
        { conversation_id := "conv9", status := "done", call_duration_secs := none,
          transcript := [], recording_url := none } []).sheet = [] ∧
      (postCall
        { sigConfigured := false, sigValid := true, parseOk := true, scanOk := true,
          transcriptUpload := some "TURL", audioUpload := none, updateOk := true }
        { conversation_id := "conv9", status := "done", call_duration_secs := none,
          transcript := [], recording_url := none } []).uploads = []) :=
  ⟨perCall_matches_most_recent.1
      [⟨100, "", "", none, none, "", "", "", "", "", none, none, "", "", "", "",
        some "RPT-A"⟩,
       ⟨50, "", "", none, none, "", "", "", "", "", none, none, "", "", "", "",
        some "RPT-B"⟩] "RPT-A" [2] (by decide),
    perCall_matches_most_recent.2.1 _ _ [] (by decide)⟩

/-- C4 counterexample: with two unlinked reports on the sheet, delivering the
identical `done` notification twice uploads the artifacts again on the second
delivery and writes links to a second report (the older one), so re-delivery
is not idempotent. -/
theorem redelivery_not_idempotent :
    (postCall
        { sigConfigured := false, sigValid := true, parseOk := true, scanOk := true,
          transcriptUpload := some "TURL", audioUpload := none, updateOk := true }
        { conversation_id := "C1", status := "done", call_duration_secs := some 60,
          transcript := [⟨"agent", "done", none⟩], recording_url := none }
        (postCall
          { sigConfigured := false, sigValid := true, parseOk := true, scanOk := true,
            transcriptUpload := some "TURL", audioUpload := none, updateOk := true }
          { conversation_id := "C1", status := "done", call_duration_secs := some 60,
            transcript := [⟨"agent", "done", none⟩], recording_url := none }
          [⟨100, "", "", none, none, "", "", "", "", "", none, none, "", "", "", "",
            some "RPT-1"⟩,
           ⟨200, "", "", none, none, "", "", "", "", "", none, none, "", "", "", "",
            some "RPT-2"⟩]).sheet).uploads ≠ [] ∧
    (postCall
        { sigConfigured := false, sigValid := true, parseOk := true, scanOk := true,
          transcriptUpload := some "TURL", audioUpload := none, updateOk := true }
        { conversation_id := "C1", status := "done", call_duration_secs := some 60,
          transcript := [⟨"agent", "done", none⟩], recording_url := none }
        (postCall
          { sigConfigured := false, sigValid := true, parseOk := true, scanOk := true,
            transcriptUpload := some "TURL", audioUpload := none, updateOk := true }
          { conversation_id := "C1", status := "done", call_duration_secs := some 60,
            transcript := [⟨"agent", "done", none⟩], recording_url := none }
          [⟨100, "", "", none, none, "", "", "", "", "", none, none, "", "", "", "",
            some "RPT-1"⟩,
           ⟨200, "", "", none, none, "", "", "", "", "", none, none, "", "", "", "",
            some "RPT-2"⟩]).sheet).sheet ≠
      (postCall
        { sigConfigured := false, sigValid := true, parseOk := true, scanOk := true,
          transcriptUpload := some "TURL", audioUpload := none, updateOk := true }
        { conversation_id := "C1", status := "done", call_duration_secs := some 60,
          transcript := [⟨"agent", "done", none⟩], recording_url := none }
        [⟨100, "", "", none, none, "", "", "", "", "", none, none, "", "", "", "",
          some "RPT-1"⟩,
         ⟨200, "", "", none, none, "", "", "", "", "", none, none, "", "", "", "",
          some "RPT-2"⟩]).sheet := by
  decide

/-- C4 amended: a report that already carries a link is excluded from every
future per-call matching attempt, and when every report on the sheet is
linked, a (re-)delivered notification uploads nothing and writes nothing;
but when some other unlinked report remains, re-delivery matches it, uploads
the artifacts again and links them there (see the counterexample). -/
theorem linked_reports_excluded :
    (∀ s id idxs, findRecentReportWithoutFiles s = some (id, idxs) →
      groupHasFiles s id = false) ∧
    (∀ env p s, (∀ k ∈ groupKeys s, groupHasFiles s k = true) →
      (postCall env p s).sheet = s ∧ (postCall env p s).uploads = []) := by
  constructor
  · intro s id idxs h
    exact (findRecent_spec s id idxs h).2.1
  · intro env p s hall
    exact postCall_noop_of_none env p s (findRecent_none_of_all_files s hall)

/-- C4 witness: `linked_reports_excluded` on a sheet with one unlinked report
and on a sheet whose only report is already linked. -/
theorem linked_reports_excluded_witness :
    groupHasFiles
      [⟨100, "", "", none, none, "", "", "", "", "", none, none, "", "", "", "",
        some "RPT-X"⟩] "RPT-X" = false ∧
    ((postCall
        { sigConfigured := false, sigValid := true, parseOk := true, scanOk := true,
          transcriptUpload := some "TURL", audioUpload := none, updateOk := true }
        { conversation_id := "C2", status := "done", call_duration_secs := none,
          transcript := [⟨"agent", "hi", none⟩], recording_url := none }
        [⟨100, "", "", none, none, "", "", "", "", "", some "A", none, "", "", "", "",
          some "RPT-Y"⟩]).sheet =
      [⟨100, "", "", none, none, "", "", "", "", "", some "A", none, "", "", "", "",
        some "RPT-Y"⟩] ∧
      (postCall
        { sigConfigured := false, sigValid := true, parseOk := true, scanOk := true,
          transcriptUpload := some "TURL", audioUpload := none, updateOk := true }
        { conversation_id := "C2", status := "done", call_duration_secs := none,
          transcript := [⟨"agent", "hi", none⟩], recording_url := none }
        [⟨100, "", "", none, none, "", "", "", "", "", some "A", none, "", "", "", "",
          some "RPT-Y"⟩]).uploads = []) :=
  ⟨linked_reports_excluded.1
      [⟨100, "", "", none, none, "", "", "", "", "", none, none, "", "", "", "",
        some "RPT-X"⟩] "RPT-X" [2] (by decide),
    linked_reports_excluded.2 _ _
      [⟨100, "", "", none, none, "", "", "", "", "", some "A", none, "", "", "", "",
        some "RPT-Y"⟩] (by decide)⟩

/-- Soundness of the inner scan of `batchProcess`: any returned conversation
either was the starting candidate or is a member of the scanned list that has
status `done`, is unused, passes the window test, and is returned together
with its absolute offset. -/
theorem scanConvs_sound (rts : Int) (used : List String) :
    ∀ (convs : List Conv) (best : Option (Conv × Int)) (c : Conv) (d : Int),
      scanConvs rts used convs best = some (c, d) →
      best = some (c, d) ∨
        (c ∈ convs ∧ c.status = "done" ∧ c.conversation_id ∉ used ∧
          windowOk (rts - convEndMs c) = true ∧ d = |rts - convEndMs c|) := by
  intro convs
  induction convs with
  | nil =>
    intro best c d h
    exact Or.inl h
  | cons c0 rest ih =>
    intro best c d h
    rw [scanConvs] at h
    split at h
    · rcases ih best c d h with h' | h'
      · exact Or.inl h'
      · exact Or.inr ⟨List.mem_cons.mpr (Or.inr h'.1), h'.2⟩
    · split at h
      · rcases ih best c d h with h' | h'
        · exact Or.inl h'
        · exact Or.inr ⟨List.mem_cons.mpr (Or.inr h'.1), h'.2⟩
      · cases best with
        | none =>
          dsimp only at h
          split at h
          · next h1 h2 h3 =>
            rcases ih _ c d h with h' | h'
            · have heq := Option.some.inj h'
              rw [Prod.ext_iff] at heq
              obtain ⟨hA, hB⟩ := heq
              dsimp at hA hB
              obtain rfl := hA
              obtain rfl := hB
              have hw : windowOk (rts - convEndMs c0) = true := by rw [Bool.and_eq_true] at h3; exact h3.1
              exact Or.inr ⟨List.mem_cons.mpr (Or.inl rfl), Decidable.not_not.mp h1,
                h2, hw, rfl⟩
            · exact Or.inr ⟨List.mem_cons.mpr (Or.inr h'.1), h'.2⟩
          · next h1 h2 h3 =>
            rcases ih none c d h with h' | h'
            · exact Or.inl h'
            · exact Or.inr ⟨List.mem_cons.mpr (Or.inr h'.1), h'.2⟩
        | some p =>
          obtain ⟨b0, bd⟩ := p
          dsimp only at h
          split at h
          · next h1 h2 h3 =>
            rcases ih _ c d h with h' | h'
            · have heq := Option.some.inj h'
              rw [Prod.ext_iff] at heq
              obtain ⟨hA, hB⟩ := heq
              dsimp at hA hB
              obtain rfl := hA
              obtain rfl := hB
              have hw : windowOk (rts - convEndMs c0) = true := by rw [Bool.and_eq_true] at h3; exact h3.1
              exact Or.inr ⟨List.mem_cons.mpr (Or.inl rfl), Decidable.not_not.mp h1,
                h2, hw, rfl⟩
            · exact Or.inr ⟨List.mem_cons.mpr (Or.inr h'.1), h'.2⟩
          · next h1 h2 h3 =>
            rcases ih (some (b0, bd)) c d h with h' | h'
            · exact Or.inl h'
            · exact Or.inr ⟨List.mem_cons.mpr (Or.inr h'.1), h'.2⟩

/-- Soundness of the outer loop of `batchProcess`: every link it produces
pairs a scanned report with a `done`, in-window conversation from the
conversation list. -/
theorem batchLoop_links_sound :
    ∀ (rs : List RGroup) (convs : List Conv) (used : List String)
      (links : List (String × String)) (pr : String × String),
      pr ∈ (batchLoop rs convs used links).1 →
      pr ∈ links ∨
        ∃ r ∈ rs, ∃ c ∈ convs, pr = (r.id, c.conversation_id) ∧
          c.status = "done" ∧ windowOk (r.ts - convEndMs c) = true := by
  intro rs
  induction rs with
  | nil =>
    intro convs used links pr h
    rw [batchLoop] at h
    exact Or.inl (List.mem_reverse.mp h)
  | cons r rest ih =>
    intro convs used links pr h
    rw [batchLoop] at h
    cases hscan : scanConvs r.ts used convs none with
    | none =>
      rw [hscan] at h
      rcases ih convs used links pr h with h' | ⟨r', hr', hrest⟩
      · exact Or.inl h'
      · exact Or.inr ⟨r', List.mem_cons.mpr (Or.inr hr'), hrest⟩
    | some cd =>
      obtain ⟨c, d⟩ := cd
      rw [hscan] at h
      dsimp only at h
      have hsound := scanConvs_sound r.ts used convs none c d hscan
      have helig : c ∈ convs ∧ c.status = "done" ∧
          windowOk (r.ts - convEndMs c) = true := by
        rcases hsound with h' | h'
        · cases h'
        · exact ⟨h'.1, h'.2.1, h'.2.2.2.1⟩
      by_cases hart : (c.hasAudio || c.hasTranscript) = true
      · rw [if_pos hart] at h
        rcases ih convs _ _ pr h with h' | ⟨r', hr', hrest⟩
        · rcases List.mem_cons.mp h' with rfl | hmem
          · exact Or.inr ⟨r, List.mem_cons.mpr (Or.inl rfl), c, helig.1, rfl,
              helig.2.1, helig.2.2⟩
          · exact Or.inl hmem
        · exact Or.inr ⟨r', List.mem_cons.mpr (Or.inr hr'), hrest⟩
      · rw [if_neg hart] at h
        rcases ih convs _ _ pr h with h' | ⟨r', hr', hrest⟩
        · exact Or.inl h'
        · exact Or.inr ⟨r', List.mem_cons.mpr (Or.inr hr'), hrest⟩

theorem insertTs_mem (r x : RGroup) : ∀ l, x ∈ insertTs r l ↔ x = r ∨ x ∈ l := by
  intro l
  induction l with
  | nil => simp [insertTs]
  | cons y ys ih =>
    rw [insertTs]
    by_cases h : y.ts ≤ r.ts
    · rw [if_pos h]
      simp only [List.mem_cons, ih]
      tauto
    · rw [if_neg h]
      simp [List.mem_cons]

theorem sortByTs_mem (x : RGroup) (l : List RGroup) :
    x ∈ sortByTs l ↔ x ∈ l := by
  have key : ∀ (l : List RGroup) (acc : List RGroup),
      x ∈ l.foldl (fun a r => insertTs r a) acc ↔ x ∈ acc ∨ x ∈ l := by
    intro l
    induction l with
    | nil => simp
    | cons y ys ih =>
      intro acc
      rw [List.foldl_cons, ih, insertTs_mem]
      simp only [List.mem_cons]
      tauto
  rw [sortByTs, key]
  simp

/-- C1 counterexample: at an offset of exactly `S - E = 300` seconds the
claimed window `-60s ≤ S - E ≤ 300s` admits the pair, but the batch code's
test (`diff < 5 * 60 * 1000`, strict) rejects it, and a batch run over that
report and that conversation links nothing. -/
theorem window_boundary_counterexample :
    specWindow 300000 ∧ windowOk 300000 = false ∧
      batchMatch [⟨"R1", 300000⟩] [⟨"C1", "done", 0, 0, true, true⟩] = ([], []) :=
  ⟨⟨by norm_num, by norm_num⟩, by decide, by decide⟩

/-- C1 amended: the batch eligibility window is the half-open
`-60000 ms ≤ S - E < 300000 ms`; every link a batch run produces satisfies
it, and an event or report all of whose offsets fall outside it stays
unmatched. -/
theorem batch_window_law :
    (∀ d : Int, windowOk d = true ↔ (-60000 ≤ d ∧ d < 300000)) ∧
    (∀ (reports : List RGroup) (convs : List Conv) (rid cid : String),
      (rid, cid) ∈ (batchMatch reports convs).1 →
      ∃ r ∈ reports, ∃ c ∈ convs, rid = r.id ∧ cid = c.conversation_id ∧
        c.status = "done" ∧ windowOk (r.ts - convEndMs c) = true) ∧
    (∀ (reports : List RGroup) (convs : List Conv) (rid : String),
      (∀ r ∈ reports, r.id = rid → ∀ c ∈ convs,
        windowOk (r.ts - convEndMs c) = false) →
      ∀ cid, (rid, cid) ∉ (batchMatch reports convs).1) ∧
    (∀ (reports : List RGroup) (convs : List Conv) (cid : String),
      (∀ c ∈ convs, c.conversation_id = cid → ∀ r ∈ reports,
        windowOk (r.ts - convEndMs c) = false) →
      ∀ rid, (rid, cid) ∉ (batchMatch reports convs).1) := by
  have hsound : ∀ (reports : List RGroup) (convs : List Conv) (rid cid : String),
      (rid, cid) ∈ (batchMatch reports convs).1 →
      ∃ r ∈ reports, ∃ c ∈ convs, rid = r.id ∧ cid = c.conversation_id ∧
        c.status = "done" ∧ windowOk (r.ts - convEndMs c) = true := by
    intro reports convs rid cid h
    rcases batchLoop_links_sound (sortByTs reports) convs [] [] (rid, cid) h with
      h' | ⟨r, hr, c, hc, heq, hdone, hw⟩
    · exact absurd h' (List.not_mem_nil _)
    · have hr' : r ∈ reports := (sortByTs_mem r reports).mp hr
      rw [Prod.ext_iff] at heq
      exact ⟨r, hr', c, hc, heq.1, heq.2, hdone, hw⟩
  refine ⟨?_, hsound, ?_, ?_⟩
  · intro d
    simp [windowOk]
  · intro reports convs rid hout cid hmem
    obtain ⟨r, hr, c, hc, hrid, -, -, hw⟩ := hsound reports convs rid cid hmem
    rw [hout r hr hrid.symm c hc] at hw
    cases hw
  · intro reports convs cid hout rid hmem
    obtain ⟨r, hr, c, hc, -, hcid, -, hw⟩ := hsound reports convs rid cid hmem
    rw [hout c hc hcid.symm r hr] at hw
    cases hw

/-- C1 witness: `batch_window_law` on a one-report, one-conversation state
whose offset (0 ms) is inside the window and is linked by the batch run. -/
theorem batch_window_law_witness :
    (windowOk 299999 = true ↔ ((-60000 : Int) ≤ 299999 ∧ (299999 : Int) < 300000)) ∧
    (∃ r ∈ [(⟨"R9", 1000⟩ : RGroup)], ∃ c ∈ [(⟨"C9", "done", 1, 0, true, false⟩ : Conv)],
      "R9" = r.id ∧ "C9" = c.conversation_id ∧ c.status = "done" ∧
        windowOk (r.ts - convEndMs c) = true) :=
  ⟨batch_window_law.1 299999,
    batch_window_law.2.1 [⟨"R9", 1000⟩] [⟨"C9", "done", 1, 0, true, false⟩]
      "R9" "C9" (by decide)⟩

/-- Exact outcome of the batch loop on two reports (already in processing
order) and two eligible conversations with fetchable artifacts: the first
report takes the conversation nearer to it, the second takes the other. -/
theorem batchLoop_pair (a b : RGroup) (c1 c2 : Conv)
    (hs1 : c1.status = "done") (hs2 : c2.status = "done")
    (ha1 : (c1.hasAudio || c1.hasTranscript) = true)
    (ha2 : (c2.hasAudio || c2.hasTranscript) = true)
    (hne : c1.conversation_id ≠ c2.conversation_id)
    (hwa1 : windowOk (a.ts - convEndMs c1) = true)
    (hwa2 : windowOk (a.ts - convEndMs c2) = true)
    (hwb1 : windowOk (b.ts - convEndMs c1) = true)
    (hwb2 : windowOk (b.ts - convEndMs c2) = true) :
    (batchLoop [a, b] [c1, c2] [] []).1 =
      if |a.ts - convEndMs c2| < |a.ts - convEndMs c1| then
        [(a.id, c2.conversation_id), (b.id, c1.conversation_id)]
      else
        [(a.id, c1.conversation_id), (b.id, c2.conversation_id)] := by
  by_cases hcmp : |a.ts - convEndMs c2| < |a.ts - convEndMs c1|
  · have hscan1 : scanConvs a.ts [] [c1, c2] none =
        some (c2, |a.ts - convEndMs c2|) := by
      simp [scanConvs, hs1, hs2, hwa1, hwa2, hcmp]
    have hscan2 : scanConvs b.ts [c2.conversation_id] [c1, c2] none =
        some (c1, |b.ts - convEndMs c1|) := by
      simp [scanConvs, hs1, hs2, hwb1, hne]
    rw [if_pos hcmp, batchLoop, hscan1]
    dsimp only
    rw [if_pos ha2]
    simp only [List.nil_append]
    rw [batchLoop, hscan2]
    dsimp only
    rw [if_pos ha1, batchLoop]
    simp
  · have hscan1 : scanConvs a.ts [] [c1, c2] none =
        some (c1, |a.ts - convEndMs c1|) := by
      simp [scanConvs, hs1, hs2, hwa1, hwa2, hcmp]
    have hscan2 : scanConvs b.ts [c1.conversation_id] [c1, c2] none =
        some (c2, |b.ts - convEndMs c2|) := by
      simp [scanConvs, hs1, hs2, hwb2, Ne.symm hne]
    rw [if_neg hcmp, batchLoop, hscan1]
    dsimp only
    rw [if_pos ha1]
    simp only [List.nil_append]
    rw [batchLoop, hscan2]
    dsimp only
    rw [if_pos ha2, batchLoop]
    simp

/-- C2 counterexample: a concrete two-report, two-conversation state (all
four pairs inside the window) on which the code's per-report greedy (oldest
report first, nearest conversation for it) assigns differently from the
claim's global smallest-offset greedy: the globally nearest pair is
(R2, C2) at 5 s, yet the batch run gives C2 to R1 (20 s) and C1 to R2. -/
theorem greedy_assignment_counterexample :
    (batchMatch [⟨"R1", 980000⟩, ⟨"R2", 1005000⟩]
        [⟨"C1", "done", 0, 900, true, false⟩, ⟨"C2", "done", 0, 1000, true, false⟩]).1 =
      [("R1", "C2"), ("R2", "C1")] ∧
    specGlobalGreedy 2 [⟨"R1", 980000⟩, ⟨"R2", 1005000⟩]
        [⟨"C1", "done", 0, 900, true, false⟩, ⟨"C2", "done", 0, 1000, true, false⟩] =
      [("R2", "C2"), ("R1", "C1")] ∧
    (batchMatch [⟨"R1", 980000⟩, ⟨"R2", 1005000⟩]
        [⟨"C1", "done", 0, 900, true, false⟩, ⟨"C2", "done", 0, 1000, true, false⟩]).1 ≠
      specGlobalGreedy 2 [⟨"R1", 980000⟩, ⟨"R2", 1005000⟩]
        [⟨"C1", "done", 0, 900, true, false⟩, ⟨"C2", "done", 0, 1000, true, false⟩] := by
  refine ⟨by decide, by decide, by decide⟩

/-- C2 amended: batch assignment is greedy per report in ascending submission
order — each report takes the nearest still-unassigned in-window `done`
conversation — not globally smallest-pair-first; still, for two unlinked
reports and two eligible conversations with distinct ids and fetchable
artifacts, all four pairs in window, the run produces exactly two links and
assigns no conversation twice. -/
theorem batch_two_by_two (r1 r2 : RGroup) (c1 c2 : Conv)
    (hs1 : c1.status = "done") (hs2 : c2.status = "done")
    (ha1 : (c1.hasAudio || c1.hasTranscript) = true)
    (ha2 : (c2.hasAudio || c2.hasTranscript) = true)
    (hne : c1.conversation_id ≠ c2.conversation_id)
    (hw11 : windowOk (r1.ts - convEndMs c1) = true)
    (hw12 : windowOk (r1.ts - convEndMs c2) = true)
    (hw21 : windowOk (r2.ts - convEndMs c1) = true)
    (hw22 : windowOk (r2.ts - convEndMs c2) = true) :
    (batchMatch [r1, r2] [c1, c2]).1.length = 2 ∧
      ((batchMatch [r1, r2] [c1, c2]).1.map Prod.snd).Nodup := by
  have hsort : sortByTs [r1, r2] = if r1.ts ≤ r2.ts then [r1, r2] else [r2, r1] := by
    simp [sortByTs, insertTs]
  have hgoal : ∀ (a b : RGroup),
      windowOk (a.ts - convEndMs c1) = true → windowOk (a.ts - convEndMs c2) = true →
      windowOk (b.ts - convEndMs c1) = true → windowOk (b.ts - convEndMs c2) = true →
      (batchLoop [a, b] [c1, c2] [] []).1.length = 2 ∧
        ((batchLoop [a, b] [c1, c2] [] []).1.map Prod.snd).Nodup := by
    intro a b hwa1 hwa2 hwb1 hwb2
    rw [batchLoop_pair a b c1 c2 hs1 hs2 ha1 ha2 hne hwa1 hwa2 hwb1 hwb2]
    by_cases hcmp : |a.ts - convEndMs c2| < |a.ts - convEndMs c1|
    · rw [if_pos hcmp]
      refine ⟨rfl, ?_⟩
      simp only [List.map_cons, List.map_nil, List.nodup_cons, List.mem_singleton,
        List.nodup_nil, and_true, List.not_mem_nil, not_false_iff]
      exact fun h => hne h.symm
    · rw [if_neg hcmp]
      refine ⟨rfl, ?_⟩
      simp only [List.map_cons, List.map_nil, List.nodup_cons, List.mem_singleton,
        List.nodup_nil, and_true, List.not_mem_nil, not_false_iff]
      exact hne
  rw [batchMatch, hsort]
  by_cases hord : r1.ts ≤ r2.ts
  · rw [if_pos hord]
    exact hgoal r1 r2 hw11 hw12 hw21 hw22
  · rw [if_neg hord]
    exact hgoal r2 r1 hw21 hw22 hw11 hw12

/-- C2 witness: `batch_two_by_two` at a concrete state. -/
theorem batch_two_by_two_witness :
    (batchMatch [⟨"RA", 980000⟩, ⟨"RB", 1005000⟩]
        [⟨"CA", "done", 0, 900, true, false⟩, ⟨"CB", "done", 0, 1000, true, false⟩]).1.length = 2 ∧
      ((batchMatch [⟨"RA", 980000⟩, ⟨"RB", 1005000⟩]
        [⟨"CA", "done", 0, 900, true, false⟩,
         ⟨"CB", "done", 0, 1000, true, false⟩]).1.map Prod.snd).Nodup :=
  batch_two_by_two ⟨"RA", 980000⟩ ⟨"RB", 1005000⟩
    ⟨"CA", "done", 0, 900, true, false⟩ ⟨"CB", "done", 0, 1000, true, false⟩
    rfl rfl rfl rfl (by decide) (by decide) (by decide) (by decide) (by decide)

end SiteLogix
